import Mathlib

/-!
Verification of the in-memory virtual filesystem (VFS) of the shell
emulator (`src/shell_emulator.py`, class `VirtualFileSystem`).

The Python code is shallowly embedded: strings are Lean `String`s, the
`dict` `vfs_content` becomes an insertion-ordered association list with
Python-`dict` update semantics, and each method becomes a Lean function.
File payloads are modelled as the already-decoded text (the Python code
decodes with `errors='ignore'`, which never fails). The base64 / zipfile
library calls are modelled by an abstract outcome type (`ZipOutcome`);
the repository code under verification is the control flow around them.
-/

namespace VirtualFileSystem

/-- A stored VFS node: a directory, or a file with its (decoded) text
content.  Mirrors the Python dict values `{'type': 'dir'|'file',
'content': ...}`. -/
inductive Entry where
  | dir : Entry
  | file (content : String) : Entry
deriving DecidableEq, Repr

/-- The store: Python `self.vfs_content`, a dict from path to entry,
modelled as an insertion-ordered association list with unique keys. -/
abbrev Store := List (String × Entry)

/-- The engine state: the mutable cursor `self.current_path` plus the
store `self.vfs_content`. -/
structure VfsState where
  current_path : String
  vfs_content : Store
deriving DecidableEq, Repr

/-- Result of one operation: Python returns `(True, payload_or_None)`
or `(False, message)`. -/
inductive Outcome where
  | ok (payload : Option String) : Outcome
  | error (msg : String) : Outcome
deriving DecidableEq, Repr

/-! ### Python string primitives used by the source -/

/-- Whether a character list starts with `/`. -/
def headIsSlash : List Char → Bool
  | [] => false
  | c :: _ => c = '/'

/-- Python `s.startswith('/')`. -/
def startsWithSlash (s : String) : Bool :=
  headIsSlash s.data

/-- Python `s.rstrip('/')`: remove all trailing `/` characters. -/
def rstripSlash (s : String) : String :=
  String.mk ((s.data.reverse.dropWhile (fun c => c = '/')).reverse)

/-- Python `s.split('/')` on a character list, with accumulator. -/
def splitCharsAux : List Char → List Char → List (List Char)
  | [], acc => [acc.reverse]
  | c :: rest, acc =>
      if c = '/' then acc.reverse :: splitCharsAux rest []
      else splitCharsAux rest (c :: acc)

/-- Python `s.split('/')`. -/
def splitSlash (s : String) : List String :=
  (splitCharsAux s.data []).map String.mk

/-- Python `'/'.join(parts)`. -/
def joinSlash : List String → String
  | [] => ""
  | [s] => s
  | s :: rest => s ++ "/" ++ joinSlash rest

/-- Python `' '.join(parts)`. -/
def joinSpace : List String → String
  | [] => ""
  | [s] => s
  | s :: rest => s ++ " " ++ joinSpace rest

/-- Python `s[n:]` (slicing counts characters). -/
def strDrop (s : String) (n : Nat) : String :=
  String.mk (s.data.drop n)

/-- Python `s.startswith(pre)`. -/
def strStartsWith (s pre : String) : Bool :=
  pre.data.isPrefixOf s.data

/-- Python `s.split('/')[0]` (`split` never returns an empty list). -/
def firstSegment (s : String) : String :=
  (splitSlash s).headD ""

/-- Python `s.split('/')[-1]` (`split` never returns an empty list). -/
def lastSegment (s : String) : String :=
  (splitSlash s).getLastD ""

/-! ### Path handling (`_get_path_parts`, `_normalize_path`) -/

/-- `_get_path_parts`: `[p for p in path.split('/') if p]`. -/
def get_path_parts (path : String) : List String :=
  (splitSlash path).filter (fun p => p ≠ "")

/-- One iteration of the `for part in ...` loop of `_normalize_path`:
`..` pops the last accumulated segment if any, `.` is skipped, anything
else is appended. -/
def normStep (parts : List String) (part : String) : List String :=
  if part = ".." then parts.dropLast
  else if part = "." then parts
  else parts ++ [part]

/-- `_normalize_path(path)` with the cursor passed explicitly.  An
absolute expression is returned with trailing slashes stripped (or `/`
itself); a relative one is resolved segment by segment against the
parts of `current`. -/
def normalize_path (current path : String) : String :=
  if startsWithSlash path then
    if path = "/" then "/" else rstripSlash path
  else
    "/" ++ joinSlash ((get_path_parts path).foldl normStep (get_path_parts current))

/-! ### The three operations -/

/-- Python `get(target, {}).get('type') != 'dir'` is false exactly when
the lookup finds a directory entry. -/
def entryTypeIsDir : Option Entry → Bool
  | some Entry.dir => true
  | _ => false

/-- The path `cd` acts on: `_normalize_path(target)` with the
`if new_path == '': new_path = '/'` remap. -/
def cdResolve (st : VfsState) (target_path : String) : String :=
  if normalize_path st.current_path target_path = "" then "/"
  else normalize_path st.current_path target_path

/-- `cd(target_path)`: mutate the cursor on success, typed failure
otherwise (messages use the original argument). -/
def cd (st : VfsState) (target_path : String) : Outcome × VfsState :=
  if List.lookup (cdResolve st target_path) st.vfs_content = none ∧
      cdResolve st target_path ≠ "/" then
    (Outcome.error ("cd: " ++ target_path ++ ": No such file or directory"), st)
  else if cdResolve st target_path ≠ "/" ∧
      entryTypeIsDir (List.lookup (cdResolve st target_path) st.vfs_content) = false then
    (Outcome.error ("cd: " ++ target_path ++ ": Not a directory"), st)
  else
    (Outcome.ok none, ⟨cdResolve st target_path, st.vfs_content⟩)

/-- The listing prefix of `ls`: `target` for root, else `target + '/'`. -/
def lsPre (target : String) : String :=
  if target = "/" then "/" else target ++ "/"

/-- The loop-body filter of `ls`:
`entry_path.startswith(prefix) and entry_path != prefix`. -/
def childKeep (pre key : String) : Bool :=
  strStartsWith key pre && !(key == pre)

/-- The name extracted from a kept key:
`entry_path[len(prefix):].split('/')[0]`. -/
def childName (pre key : String) : String :=
  firstSegment (strDrop key pre.data.length)

/-- `if name not in contents: contents.append(name)`. -/
def dedupAppend (acc : List String) (x : String) : List String :=
  if x ∈ acc then acc else acc ++ [x]

/-- Python string `<=`: lexicographic comparison of the code-point
sequences, a shorter string preceding its extensions. -/
def charListLe : List Char → List Char → Bool
  | [], _ => true
  | _ :: _, [] => false
  | a :: as, b :: bs =>
      if a.toNat = b.toNat then charListLe as bs
      else decide (a.toNat < b.toNat)

/-- The order Python's `sorted` uses on strings. -/
def pyLe (a b : String) : Bool :=
  charListLe a.data b.data

/-- One iteration of the `for entry_path in self.vfs_content` loop of
`ls`. -/
def lsStep (pre : String) (acc : List String) (p : String × Entry) : List String :=
  if childKeep pre p.1 then dedupAppend acc (childName pre p.1) else acc

/-- The `for entry_path in self.vfs_content` accumulation of `ls`. -/
def collectNames (store : Store) (pre : String) : List String :=
  store.foldl (lsStep pre) []

/-- The list `sorted(contents)` that `ls` joins with spaces. -/
def listChildren (store : Store) (target : String) : List String :=
  List.insertionSort (fun a b : String => pyLe a b = true) (collectNames store (lsPre target))

/-- `ls(path)`: error when absent (and not root), the file's own last
segment for a file, the sorted space-joined children otherwise. -/
def ls (st : VfsState) (path : String) : Outcome × VfsState :=
  if List.lookup (normalize_path st.current_path path) st.vfs_content = none ∧
      normalize_path st.current_path path ≠ "/" then
    (Outcome.error ("ls: " ++ path ++ ": No such file or directory"), st)
  else if normalize_path st.current_path path ≠ "/" ∧
      entryTypeIsDir (List.lookup (normalize_path st.current_path path) st.vfs_content) = false then
    (Outcome.ok (some (lastSegment (normalize_path st.current_path path))), st)
  else
    (Outcome.ok (some (joinSpace
      (listChildren st.vfs_content (normalize_path st.current_path path)))), st)

/-- `cat(path)`: error when absent, error on a directory, the stored
(best-effort decoded) content otherwise. -/
def cat (st : VfsState) (path : String) : Outcome × VfsState :=
  match List.lookup (normalize_path st.current_path path) st.vfs_content with
  | none => (Outcome.error ("cat: " ++ path ++ ": No such file or directory"), st)
  | some Entry.dir => (Outcome.error ("cat: " ++ path ++ ": Is a directory"), st)
  | some (Entry.file c) => (Outcome.ok (some c), st)

/-! ### Loading (`load_from_base64`, `__init__`) -/

/-- One archive member, as yielded by `zf.infolist()`: its raw name,
whether `member.is_dir()`, and (for a file) the already
best-effort-decoded text content (`decode('utf-8', errors='ignore')`
never fails). -/
structure RawMember where
  filename : String
  isDir : Bool
  content : String
deriving DecidableEq, Repr

/-- The possible outcomes of the base64 / zipfile library calls that
`load_from_base64` wraps: `base64.b64decode` raising (with message
`msg`), `zipfile.ZipFile` raising `BadZipFile`, or a successfully
opened archive with its member list. -/
inductive ZipOutcome where
  | decodeFail (msg : String) : ZipOutcome
  | badZip : ZipOutcome
  | archive (members : List RawMember) : ZipOutcome
deriving DecidableEq, Repr

/-- The exception `load_from_base64` lets escape: Python `ValueError`
or `RuntimeError`, each with its message. -/
inductive LoadError where
  | valueError (msg : String) : LoadError
  | runtimeError (msg : String) : LoadError
deriving DecidableEq, Repr

/-- Decidable equality for `Except` values (needed to evaluate load
outcomes on concrete archives). -/
def exceptDecEq {α β : Type} [DecidableEq α] [DecidableEq β] :
    DecidableEq (Except α β) := fun a b =>
  match a, b with
  | Except.error x, Except.error y =>
      if h : x = y then Decidable.isTrue (by rw [h])
      else Decidable.isFalse (fun hc => h (by injection hc))
  | Except.error _, Except.ok _ => Decidable.isFalse (fun hc => Except.noConfusion hc)
  | Except.ok _, Except.error _ => Decidable.isFalse (fun hc => Except.noConfusion hc)
  | Except.ok x, Except.ok y =>
      if h : x = y then Decidable.isTrue (by rw [h])
      else Decidable.isFalse (fun hc => h (by injection hc))

instance {α β : Type} [DecidableEq α] [DecidableEq β] : DecidableEq (Except α β) :=
  exceptDecEq

/-- `'/' + member.filename.rstrip('/')`. -/
def memberPath (m : RawMember) : String :=
  "/" ++ rstripSlash m.filename

/-- The entry stored for a member: a directory marker or the file with
its content. -/
def memberEntry (m : RawMember) : Entry :=
  if m.isDir then Entry.dir else Entry.file m.content

/-- `self.vfs_content[path] = ...` with Python-dict semantics: an
existing key keeps its position and gets the new value, a new key is
appended. -/
def insertEntry (store : Store) (k : String) (v : Entry) : Store :=
  if store.any (fun p => p.1 = k) then
    store.map (fun p => if p.1 = k then (k, v) else p)
  else store ++ [(k, v)]

/-- The `for member in zf.infolist()` loop building `vfs_content`. -/
def buildStore (members : List RawMember) : Store :=
  members.foldl (fun st m => insertEntry st (memberPath m) (memberEntry m)) []

/-- `load_from_base64`, as its try/except dispatch over the library
outcomes: a base64 decode failure is not `BadZipFile`, so the generic
`except Exception` wraps it in a `RuntimeError`; `BadZipFile` is
re-raised as a `ValueError`; the `ValueError("ZIP archive is empty.")`
raised for an empty member list is likewise caught by the generic
handler and wrapped in a `RuntimeError`. -/
def load_from_base64 (z : ZipOutcome) : Except LoadError Store :=
  match z with
  | ZipOutcome.decodeFail msg =>
      Except.error (LoadError.runtimeError
        ("VFS load error: Failed to process VFS data (" ++ msg ++ ")"))
  | ZipOutcome.badZip =>
      Except.error (LoadError.valueError
        "VFS load error: Invalid or corrupted ZIP file format.")
  | ZipOutcome.archive members =>
      if members = [] then
        Except.error (LoadError.runtimeError
          "VFS load error: Failed to process VFS data (ZIP archive is empty.)")
      else
        Except.ok (buildStore members)

/-- `__init__`: cursor at `/`, then load; any load exception escapes
the constructor, so no engine value exists on failure. -/
def init (z : ZipOutcome) : Except LoadError VfsState :=
  match load_from_base64 z with
  | Except.error e => Except.error e
  | Except.ok store => Except.ok ⟨"/", store⟩

/-- The Python exception class of a load outcome: 0 for `ValueError`,
1 for `RuntimeError`, 2 for success. -/
def loadErrKind : Except LoadError Store → Nat
  | Except.error (LoadError.valueError _) => 0
  | Except.error (LoadError.runtimeError _) => 1
  | Except.ok _ => 2

/-! ### Auxiliary predicates and sample data for the statements -/

/-- A canonical absolute directory path in the spec's sense: it is the
serialization of its own `/`-separated parts (absolute, no empty
segments, no trailing slash except `/` itself) and contains no `.` or
`..` segment. -/
def isCanonicalDir (d : String) : Bool :=
  (d == "/" ++ joinSlash (get_path_parts d)) &&
  (get_path_parts d).all (fun seg => !(seg == ".") && !(seg == ".."))

/-- The store invariant that root, when stored at all, is a directory
(the spec guarantees the root path is always a Directory). -/
def rootNotFile (store : Store) : Bool :=
  match List.lookup "/" store with
  | some (Entry.file _) => false
  | _ => true

/-- A small sample engine state used to instantiate the theorems. -/
def sampleState : VfsState :=
  ⟨"/", [("/a", Entry.dir), ("/a/b.txt", Entry.file "hello"), ("/f", Entry.file "x")]⟩

/-- A loaded archive with no explicit root member. -/
def rootlessZip : ZipOutcome :=
  ZipOutcome.archive [⟨"a", false, "hello"⟩]

/-- The engine state produced by loading `rootlessZip`. -/
def rootlessState : VfsState :=
  ⟨"/", buildStore [⟨"a", false, "hello"⟩]⟩

/-! ## Helper lemmas -/

theorem dropWhile_self_idem (p : Char → Bool) (l : List Char) :
    List.dropWhile p (List.dropWhile p l) = List.dropWhile p l := by
  induction l with
  | nil => rfl
  | cons c rest ih =>
      by_cases h : p c
      · simp [List.dropWhile_cons, h, ih]
      · simp [List.dropWhile_cons, h]

theorem rstripSlash_idem (s : String) : rstripSlash (rstripSlash s) = rstripSlash s := by
  unfold rstripSlash
  simp [dropWhile_self_idem]

theorem rstripSlash_data_isPrefix (s : String) : (rstripSlash s).data <+: s.data := by
  have h1 : (s.data.reverse.dropWhile (fun c => c = '/')) <:+ s.data.reverse :=
    List.dropWhile_suffix _
  have h2 := List.reverse_prefix.mpr h1
  rw [List.reverse_reverse] at h2
  exact h2

theorem startsWithSlash_exists (s : String) (h : startsWithSlash s = true) :
    ∃ t, s.data = '/' :: t := by
  unfold startsWithSlash at h
  cases hd : s.data with
  | nil => rw [hd] at h; simp [headIsSlash] at h
  | cons c t =>
      rw [hd] at h
      simp [headIsSlash] at h
      subst h
      exact ⟨t, rfl⟩

theorem mk_ne_empty (l : List Char) (h : l ≠ []) : String.mk l ≠ "" := by
  intro hcon
  exact h (congrArg String.data hcon)

theorem startsWithSlash_rstrip (s : String) (h : startsWithSlash s = true)
    (hne : rstripSlash s ≠ "") : startsWithSlash (rstripSlash s) = true := by
  obtain ⟨t, ht⟩ := startsWithSlash_exists s h
  obtain ⟨u, hu⟩ := rstripSlash_data_isPrefix s
  cases hd : (rstripSlash s).data with
  | nil =>
      exfalso
      apply hne
      have : rstripSlash s = String.mk (rstripSlash s).data := rfl
      rw [this, hd]
  | cons c w =>
      rw [hd] at hu
      rw [ht] at hu
      have hc : c = '/' := (List.cons.injEq _ _ _ _).mp hu |>.1
      simp [startsWithSlash, hd, hc, headIsSlash]

theorem normalize_path_absolute (d p : String) (h : startsWithSlash p = true) :
    normalize_path d p = if p = "/" then "/" else rstripSlash p := by
  simp [normalize_path, h]

theorem normalize_path_root (d : String) : normalize_path d "/" = "/" := by
  rw [normalize_path_absolute d "/" (by decide)]
  simp

/-! ## Claims about `_normalize_path` -/

/-- C1 counterexample: the claim says `normalize("/a/../b", d) == "/b"`,
but on an absolute expression the code applies no segment rules at all:
it returns `"/a/../b"` unchanged. -/
theorem C1_counterexample :
    normalize_path "/" "/a/../b" = "/a/../b" ∧ "/a/../b" ≠ "/b" := by
  decide

/-- C1 (amended): an expression starting with `/` is *not* resolved by
the left-to-right segment rules; `_normalize_path` returns it verbatim
with trailing slashes stripped (or `/` for the expression `/` itself),
so `.`/`..`/empty segments survive: `normalize("/a/../b", d) ==
"/a/../b"` and `normalize("/a//b", d) == "/a//b"` for every current
directory `d`. -/
theorem C1_normalize_absolute (d p : String) (h : startsWithSlash p = true) :
    normalize_path d p = (if p = "/" then "/" else rstripSlash p) ∧
    normalize_path d "/a/../b" = "/a/../b" ∧
    normalize_path d "/a//b" = "/a//b" := by
  refine ⟨normalize_path_absolute d p h, ?_, ?_⟩
  · rw [normalize_path_absolute d _ (by decide)]
    decide
  · rw [normalize_path_absolute d _ (by decide)]
    decide

theorem C1_witness :
    startsWithSlash "/a/../b" = true ∧
    normalize_path "/x" "/a/../b" =
      (if "/a/../b" = "/" then "/" else rstripSlash "/a/../b") :=
  ⟨by decide, (C1_normalize_absolute "/x" "/a/../b" (by decide)).1⟩

/-- C8 counterexample: `"//"` is an absolute expression, but
normalization is not idempotent on it: `normalize("//", "/") == ""`
while `normalize("", "/") == "/"`. -/
theorem C8_counterexample :
    startsWithSlash "//" = true ∧
    normalize_path "/" (normalize_path "/" "//") ≠ normalize_path "/" "//" := by
  decide

/-- C8 (amended): `normalize` is idempotent on every absolute
expression except those consisting solely of two or more slashes
(whose normalization is the empty string): for every `p` that starts
with `/` and either equals `/` or contains a non-slash character
(i.e. `rstrip('/')` of it is non-empty), and every `d`,
`normalize(normalize(p, d), d) == normalize(p, d)`. -/
theorem C8_normalize_idem (d p : String) (h1 : startsWithSlash p = true)
    (h2 : p = "/" ∨ rstripSlash p ≠ "") :
    normalize_path d (normalize_path d p) = normalize_path d p := by
  by_cases hp : p = "/"
  · rw [hp, normalize_path_root, normalize_path_root]
  · rcases h2 with h2 | h2
    · exact absurd h2 hp
    · have e1 : normalize_path d p = rstripSlash p := by
        rw [normalize_path_absolute d p h1]
        simp [hp]
      rw [e1]
      have hsw : startsWithSlash (rstripSlash p) = true :=
        startsWithSlash_rstrip p h1 h2
      by_cases hr : rstripSlash p = "/"
      · rw [hr, normalize_path_root]
      · rw [normalize_path_absolute d _ hsw]
        simp [hr, rstripSlash_idem]

theorem C8_witness :
    startsWithSlash "/a/" = true ∧ ("/a/" = "/" ∨ rstripSlash "/a/" ≠ "") ∧
    normalize_path "/" (normalize_path "/" "/a/") = normalize_path "/" "/a/" :=
  ⟨by decide, Or.inr (by decide),
    C8_normalize_idem "/" "/a/" (by decide) (Or.inr (by decide))⟩

/-- C9: popping at root is a no-op (`normalize("..", "/") == "/"`), and
`.` is an identity on every canonical absolute directory:
`normalize(".", d) == d`. -/
theorem C9_normalize_dot (d : String) (h : isCanonicalDir d = true) :
    normalize_path "/" ".." = "/" ∧ normalize_path d "." = d := by
  constructor
  · decide
  · have h1 : d = "/" ++ joinSlash (get_path_parts d) := by
      unfold isCanonicalDir at h
      rw [Bool.and_eq_true] at h
      exact eq_of_beq h.1
    have h2 : startsWithSlash "." = false := by decide
    have h3 : get_path_parts "." = ["."] := by decide
    have h4 : ∀ ps : List String, normStep ps "." = ps := by
      intro ps
      unfold normStep
      rw [if_neg (by decide), if_pos rfl]
    calc normalize_path d "."
        = "/" ++ joinSlash ((get_path_parts ".").foldl normStep (get_path_parts d)) := by
          simp [normalize_path, h2]
      _ = "/" ++ joinSlash (get_path_parts d) := by
          rw [h3, List.foldl_cons, List.foldl_nil, h4]
      _ = d := h1.symm

theorem C9_witness :
    isCanonicalDir "/a/b" = true ∧ normalize_path "/a/b" "." = "/a/b" :=
  ⟨by decide, (C9_normalize_dot "/a/b" (by decide)).2⟩

/-! ## Loaded stores never hold the empty key

These lemmas justify quantifying C10 over stores whose empty-string
lookup fails: every key a load produces starts with `/`. -/

theorem memberPath_starts (m : RawMember) : startsWithSlash (memberPath m) = true := rfl

theorem insertEntry_keys (store : Store) (k : String) (v : Entry)
    (h : ∀ q ∈ store, startsWithSlash q.1 = true) (hk : startsWithSlash k = true) :
    ∀ q ∈ insertEntry store k v, startsWithSlash q.1 = true := by
  intro q hq
  unfold insertEntry at hq
  by_cases hc : store.any (fun p => p.1 = k)
  · rw [if_pos hc] at hq
    obtain ⟨p, hp, hpq⟩ := List.mem_map.mp hq
    by_cases hpk : p.1 = k
    · rw [if_pos hpk] at hpq
      rw [← hpq]
      exact hk
    · rw [if_neg hpk] at hpq
      rw [← hpq]
      exact h p hp
  · rw [if_neg hc] at hq
    rcases List.mem_append.mp hq with hq | hq
    · exact h q hq
    · rw [List.mem_singleton.mp hq]
      exact hk

theorem buildStore_keys (ms : List RawMember) :
    ∀ q ∈ buildStore ms, startsWithSlash q.1 = true := by
  have haux : ∀ (l : List RawMember) (acc : Store),
      (∀ q ∈ acc, startsWithSlash q.1 = true) →
      ∀ q ∈ l.foldl (fun st m => insertEntry st (memberPath m) (memberEntry m)) acc,
        startsWithSlash q.1 = true := by
    intro l
    induction l with
    | nil => exact fun acc h q hq => h q hq
    | cons m rest ih =>
        intro acc h q hq
        rw [List.foldl_cons] at hq
        exact ih _ (insertEntry_keys acc _ _ h (memberPath_starts m)) q hq
  exact haux ms [] (by intro q hq; cases hq)

theorem lookup_empty_none (store : Store)
    (h : ∀ q ∈ store, startsWithSlash q.1 = true) :
    List.lookup "" store = none := by
  induction store with
  | nil => rfl
  | cons p rest ih =>
      obtain ⟨k, v⟩ := p
      have hk := h (k, v) (List.mem_cons_self _ _)
      obtain ⟨t, ht⟩ := startsWithSlash_exists k hk
      have hne : ("" : String) ≠ k := by
        intro hc
        rw [← hc] at ht
        exact List.noConfusion ht
      have hbeq : (("" : String) == k) = false := beq_eq_false_iff_ne.mpr hne
      rw [List.lookup, hbeq]
      exact ih (fun q hq => h q (List.mem_cons_of_mem _ hq))

theorem lookup_empty_of_loaded (z : ZipOutcome) (store : Store)
    (h : load_from_base64 z = Except.ok store) :
    List.lookup "" store = none := by
  cases z with
  | decodeFail msg => simp [load_from_base64] at h
  | badZip => simp [load_from_base64] at h
  | archive ms =>
      by_cases hms : ms = []
      · simp [load_from_base64, hms] at h
      · simp only [load_from_base64] at h
        rw [if_neg hms] at h
        injection h with h2
        rw [← h2]
        exact lookup_empty_none _ (buildStore_keys ms)

/-! ## Claims about the operations -/

/-- C10: an absolute expression made only of slashes (and longer than
`/`) normalizes to the empty string; `cd` then succeeds and lands on
`/` through the empty-string remap, while `ls` and `cat` look up the
empty string, find nothing, and fail with the not-found error (loaded
stores only hold keys starting with `/`, so the empty key is absent). -/
theorem C10_slashes_only (st : VfsState) (p : String)
    (hne : p.data ≠ []) (hall : ∀ c ∈ p.data, c = '/') (hp : p ≠ "/")
    (hkey : List.lookup "" st.vfs_content = none) :
    normalize_path st.current_path p = "" ∧
    cd st p = (Outcome.ok none, ⟨"/", st.vfs_content⟩) ∧
    ls st p = (Outcome.error ("ls: " ++ p ++ ": No such file or directory"), st) ∧
    cat st p = (Outcome.error ("cat: " ++ p ++ ": No such file or directory"), st) := by
  have hsw : startsWithSlash p = true := by
    cases hd : p.data with
    | nil => exact absurd hd hne
    | cons c t =>
        have hc : c = '/' := hall c (by rw [hd]; exact List.mem_cons_self c t)
        simp [startsWithSlash, hd, hc, headIsSlash]
  have hr : rstripSlash p = "" := by
    have hdw : p.data.reverse.dropWhile (fun c => c = '/') = [] := by
      rw [List.dropWhile_eq_nil_iff]
      intro x hx
      have hx2 := hall x (List.mem_reverse.mp hx)
      simp [hx2]
    unfold rstripSlash
    rw [hdw]
    rfl
  have hnorm : normalize_path st.current_path p = "" := by
    rw [normalize_path_absolute _ p hsw, if_neg hp, hr]
  have hres : cdResolve st p = "/" := by
    unfold cdResolve
    rw [hnorm]
    rfl
  refine ⟨hnorm, ?_, ?_, ?_⟩
  · unfold cd
    rw [hres]
    rw [if_neg (fun hcon => hcon.2 rfl)]
    rw [if_neg (fun hcon => hcon.1 rfl)]
  · unfold ls
    rw [hnorm]
    rw [if_pos ⟨hkey, by decide⟩]
  · unfold cat
    rw [hnorm, hkey]

theorem C10_witness :
    normalize_path sampleState.current_path "//" = "" ∧
    cd sampleState "//" = (Outcome.ok none, ⟨"/", sampleState.vfs_content⟩) ∧
    ls sampleState "//" =
      (Outcome.error ("ls: " ++ "//" ++ ": No such file or directory"), sampleState) ∧
    cat sampleState "//" =
      (Outcome.error ("cat: " ++ "//" ++ ": No such file or directory"), sampleState) :=
  C10_slashes_only sampleState "//" (by decide) (by decide) (by decide) (by decide)

/-- C3: `cd` resolves the target against the cursor; a resolved path
other than `/` that is absent fails with the not-found error, a
present file fails with the not-a-directory error, and otherwise the
cursor is set to the resolved path with an empty success payload; both
failure messages embed the original argument. -/
theorem C3_cd_spec (st : VfsState) (t : String)
    (hroot : rootNotFile st.vfs_content = true) :
    (List.lookup (cdResolve st t) st.vfs_content = none ∧ cdResolve st t ≠ "/" →
      cd st t = (Outcome.error ("cd: " ++ t ++ ": No such file or directory"), st)) ∧
    (∀ c, List.lookup (cdResolve st t) st.vfs_content = some (Entry.file c) →
      cd st t = (Outcome.error ("cd: " ++ t ++ ": Not a directory"), st)) ∧
    ((cdResolve st t = "/" ∨ List.lookup (cdResolve st t) st.vfs_content = some Entry.dir) →
      cd st t = (Outcome.ok none, ⟨cdResolve st t, st.vfs_content⟩)) := by
  refine ⟨?_, ?_, ?_⟩
  · intro h
    unfold cd
    rw [if_pos h]
  · intro c hc
    have hnr : cdResolve st t ≠ "/" := by
      intro he
      rw [he] at hc
      unfold rootNotFile at hroot
      rw [hc] at hroot
      simp at hroot
    have hA : ¬(List.lookup (cdResolve st t) st.vfs_content = none ∧ cdResolve st t ≠ "/") := by
      intro hcon
      rw [hc] at hcon
      exact Option.noConfusion hcon.1
    have hB : entryTypeIsDir (List.lookup (cdResolve st t) st.vfs_content) = false := by
      rw [hc]
      rfl
    unfold cd
    rw [if_neg hA, if_pos ⟨hnr, hB⟩]
  · intro h
    rcases h with h | h
    · unfold cd
      rw [if_neg (fun hcon => hcon.2 h), if_neg (fun hcon => hcon.1 h)]
    · have hA : ¬(List.lookup (cdResolve st t) st.vfs_content = none ∧ cdResolve st t ≠ "/") := by
        intro hcon
        rw [h] at hcon
        exact Option.noConfusion hcon.1
      have hB : ¬(cdResolve st t ≠ "/" ∧
          entryTypeIsDir (List.lookup (cdResolve st t) st.vfs_content) = false) := by
        intro hcon
        have hc2 := hcon.2
        rw [h] at hc2
        simp [entryTypeIsDir] at hc2
      unfold cd
      rw [if_neg hA, if_neg hB]

theorem C3_witness :
    rootNotFile sampleState.vfs_content = true ∧
    cd sampleState "missing" =
      (Outcome.error ("cd: " ++ "missing" ++ ": No such file or directory"), sampleState) ∧
    cd sampleState "f" =
      (Outcome.error ("cd: " ++ "f" ++ ": Not a directory"), sampleState) ∧
    cd sampleState "a" = (Outcome.ok none, ⟨cdResolve sampleState "a", sampleState.vfs_content⟩) :=
  ⟨by decide,
    (C3_cd_spec sampleState "missing" (by decide)).1 ⟨by decide, by decide⟩,
    (C3_cd_spec sampleState "f" (by decide)).2.1 "x" (by decide),
    (C3_cd_spec sampleState "a" (by decide)).2.2 (Or.inr (by decide))⟩

/-- C4: `cat` fails with the not-found error when the resolved path is
absent, fails with the is-a-directory error on a directory entry, and
otherwise returns the stored (best-effort decoded) file text verbatim;
failure messages embed the original argument. -/
theorem C4_cat_spec (st : VfsState) (t : String) :
    (List.lookup (normalize_path st.current_path t) st.vfs_content = none →
      cat st t = (Outcome.error ("cat: " ++ t ++ ": No such file or directory"), st)) ∧
    (List.lookup (normalize_path st.current_path t) st.vfs_content = some Entry.dir →
      cat st t = (Outcome.error ("cat: " ++ t ++ ": Is a directory"), st)) ∧
    (∀ c, List.lookup (normalize_path st.current_path t) st.vfs_content = some (Entry.file c) →
      cat st t = (Outcome.ok (some c), st)) := by
  refine ⟨?_, ?_, ?_⟩
  · intro h
    unfold cat
    rw [h]
  · intro h
    unfold cat
    rw [h]
  · intro c h
    unfold cat
    rw [h]

theorem C4_witness :
    cat sampleState "missing" =
      (Outcome.error ("cat: " ++ "missing" ++ ": No such file or directory"), sampleState) ∧
    cat sampleState "/a" =
      (Outcome.error ("cat: " ++ "/a" ++ ": Is a directory"), sampleState) ∧
    cat sampleState "a/b.txt" = (Outcome.ok (some "hello"), sampleState) :=
  ⟨(C4_cat_spec sampleState "missing").1 (by decide),
    (C4_cat_spec sampleState "/a").2.1 (by decide),
    (C4_cat_spec sampleState "a/b.txt").2.2 "hello" (by decide)⟩

/-- C7: the cursor is mutated only by a successful `cd`: `ls` and
`cat` return the state unchanged, and a `cd` that returns an error
leaves the state unchanged as well. -/
theorem C7_cursor_frame (st : VfsState) (t : String) :
    (ls st t).2 = st ∧ (cat st t).2 = st ∧
    (∀ m, (cd st t).1 = Outcome.error m → (cd st t).2 = st) := by
  refine ⟨?_, ?_, ?_⟩
  · unfold ls
    split
    · rfl
    · split
      · rfl
      · rfl
  · unfold cat
    split <;> rfl
  · intro m
    by_cases h1 : List.lookup (cdResolve st t) st.vfs_content = none ∧ cdResolve st t ≠ "/"
    · intro _
      unfold cd
      rw [if_pos h1]
    · by_cases h2 : cdResolve st t ≠ "/" ∧
          entryTypeIsDir (List.lookup (cdResolve st t) st.vfs_content) = false
      · intro _
        unfold cd
        rw [if_neg h1, if_pos h2]
      · intro h
        unfold cd at h
        rw [if_neg h1, if_neg h2] at h
        simp at h

theorem C7_witness :
    (ls sampleState "a").2 = sampleState ∧
    (cat sampleState "f").2 = sampleState ∧
    (cd sampleState "/missing").2 = sampleState :=
  ⟨(C7_cursor_frame sampleState "a").1,
    (C7_cursor_frame sampleState "f").2.1,
    (C7_cursor_frame sampleState "/missing").2.2
      ("cd: " ++ "/missing" ++ ": No such file or directory") (by decide)⟩

/-! ## Listing lemmas for C5 -/

theorem charListLe_total : ∀ l₁ l₂ : List Char,
    charListLe l₁ l₂ = true ∨ charListLe l₂ l₁ = true
  | [], _ => Or.inl rfl
  | _ :: _, [] => Or.inr rfl
  | a :: as, b :: bs => by
      by_cases h : a.toNat = b.toNat
      · rcases charListLe_total as bs with ih | ih
        · left
          simp [charListLe, h, ih]
        · right
          simp [charListLe, h.symm, ih]
      · rcases Nat.lt_or_ge a.toNat b.toNat with hlt | hge
        · left
          simp [charListLe, h, hlt]
        · right
          have hne : b.toNat ≠ a.toNat := fun hc => h hc.symm
          have hlt : b.toNat < a.toNat := Nat.lt_of_le_of_ne hge hne
          simp [charListLe, hne, hlt]

theorem charListLe_trans : ∀ l₁ l₂ l₃ : List Char,
    charListLe l₁ l₂ = true → charListLe l₂ l₃ = true → charListLe l₁ l₃ = true
  | [], _, _ => fun _ _ => rfl
  | _ :: _, [], _ => fun h _ => by simp [charListLe] at h
  | _ :: _, _ :: _, [] => fun _ h => by simp [charListLe] at h
  | a :: as, b :: bs, c :: cs => fun h1 h2 => by
      by_cases hab : a.toNat = b.toNat <;> by_cases hbc : b.toNat = c.toNat
      · rw [charListLe, if_pos hab] at h1
        rw [charListLe, if_pos hbc] at h2
        rw [charListLe, if_pos (hab.trans hbc)]
        exact charListLe_trans as bs cs h1 h2
      · rw [charListLe, if_neg hbc] at h2
        have hltbc : b.toNat < c.toNat := of_decide_eq_true h2
        have hltac : a.toNat < c.toNat := hab ▸ hltbc
        rw [charListLe, if_neg (Nat.ne_of_lt hltac)]
        exact decide_eq_true hltac
      · rw [charListLe, if_neg hab] at h1
        have hltab : a.toNat < b.toNat := of_decide_eq_true h1
        have hltac : a.toNat < c.toNat := hbc ▸ hltab
        rw [charListLe, if_neg (Nat.ne_of_lt hltac)]
        exact decide_eq_true hltac
      · rw [charListLe, if_neg hab] at h1
        rw [charListLe, if_neg hbc] at h2
        have hltab : a.toNat < b.toNat := of_decide_eq_true h1
        have hltbc : b.toNat < c.toNat := of_decide_eq_true h2
        have hltac : a.toNat < c.toNat := Nat.lt_trans hltab hltbc
        rw [charListLe, if_neg (Nat.ne_of_lt hltac)]
        exact decide_eq_true hltac

instance : IsTotal String (fun a b : String => pyLe a b = true) :=
  ⟨fun a b => charListLe_total a.data b.data⟩

instance : IsTrans String (fun a b : String => pyLe a b = true) :=
  ⟨fun a b c => charListLe_trans a.data b.data c.data⟩

theorem mem_dedupAppend (acc : List String) (y x : String) :
    x ∈ dedupAppend acc y ↔ x ∈ acc ∨ x = y := by
  unfold dedupAppend
  by_cases h : y ∈ acc
  · rw [if_pos h]
    constructor
    · exact Or.inl
    · rintro (hx | hx)
      · exact hx
      · exact hx ▸ h
  · rw [if_neg h]
    simp

theorem nodup_dedupAppend (acc : List String) (y : String) (h : acc.Nodup) :
    (dedupAppend acc y).Nodup := by
  unfold dedupAppend
  by_cases hy : y ∈ acc
  · rw [if_pos hy]
    exact h
  · rw [if_neg hy]
    simp [List.nodup_append, h, hy]

theorem mem_foldl_lsStep (pre : String) (l : Store) (acc : List String) (x : String) :
    x ∈ l.foldl (lsStep pre) acc ↔
      x ∈ acc ∨ ∃ q, q ∈ l ∧ childKeep pre q.1 = true ∧ x = childName pre q.1 := by
  induction l generalizing acc with
  | nil => simp
  | cons q rest ih =>
      rw [List.foldl_cons, ih]
      unfold lsStep
      by_cases hk : childKeep pre q.1 = true
      · rw [if_pos hk, mem_dedupAppend]
        constructor
        · rintro ((hx | hx) | ⟨r, hr, hkr, hxr⟩)
          · exact Or.inl hx
          · exact Or.inr ⟨q, List.mem_cons_self q rest, hk, hx⟩
          · exact Or.inr ⟨r, List.mem_cons_of_mem q hr, hkr, hxr⟩
        · rintro (hx | ⟨r, hr, hkr, hxr⟩)
          · exact Or.inl (Or.inl hx)
          · rcases List.mem_cons.mp hr with hr | hr
            · exact Or.inl (Or.inr (hr ▸ hxr))
            · exact Or.inr ⟨r, hr, hkr, hxr⟩
      · rw [if_neg hk]
        constructor
        · rintro (hx | ⟨r, hr, hkr, hxr⟩)
          · exact Or.inl hx
          · exact Or.inr ⟨r, List.mem_cons_of_mem q hr, hkr, hxr⟩
        · rintro (hx | ⟨r, hr, hkr, hxr⟩)
          · exact Or.inl hx
          · rcases List.mem_cons.mp hr with hr | hr
            · exact absurd (hr ▸ hkr) hk
            · exact Or.inr ⟨r, hr, hkr, hxr⟩

theorem nodup_foldl_lsStep (pre : String) (l : Store) (acc : List String)
    (h : acc.Nodup) : (l.foldl (lsStep pre) acc).Nodup := by
  induction l generalizing acc with
  | nil => exact h
  | cons q rest ih =>
      rw [List.foldl_cons]
      apply ih
      unfold lsStep
      by_cases hk : childKeep pre q.1 = true
      · rw [if_pos hk]
        exact nodup_dedupAppend _ _ h
      · rw [if_neg hk]
        exact h

theorem listChildren_sorted (store : Store) (target : String) :
    List.Sorted (fun a b : String => pyLe a b = true) (listChildren store target) :=
  List.sorted_insertionSort _ _

theorem listChildren_nodup (store : Store) (target : String) :
    (listChildren store target).Nodup :=
  ((List.perm_insertionSort _ _).nodup_iff).mpr
    (nodup_foldl_lsStep _ store [] List.nodup_nil)

theorem mem_listChildren (store : Store) (target : String) (x : String) :
    x ∈ listChildren store target ↔
      ∃ q, q ∈ store ∧ childKeep (lsPre target) q.1 = true ∧
        x = childName (lsPre target) q.1 := by
  unfold listChildren collectNames
  rw [(List.perm_insertionSort _ _).mem_iff, mem_foldl_lsStep]
  simp

/-- C5: `ls` on a resolved file returns just the file's final path
segment; on a resolved directory (or root) it returns the immediate
child names — the first segment of every stored key strictly extending
the listing prefix — deduplicated, sorted ascending, joined by single
spaces. -/
theorem C5_ls_spec (st : VfsState) (t : String)
    (hroot : rootNotFile st.vfs_content = true) :
    (∀ c, List.lookup (normalize_path st.current_path t) st.vfs_content =
        some (Entry.file c) →
      ls st t = (Outcome.ok (some (lastSegment (normalize_path st.current_path t))), st)) ∧
    ((normalize_path st.current_path t = "/" ∨
        List.lookup (normalize_path st.current_path t) st.vfs_content = some Entry.dir) →
      ls st t = (Outcome.ok (some (joinSpace
        (listChildren st.vfs_content (normalize_path st.current_path t)))), st)) ∧
    List.Sorted (fun a b : String => pyLe a b = true)
      (listChildren st.vfs_content (normalize_path st.current_path t)) ∧
    (listChildren st.vfs_content (normalize_path st.current_path t)).Nodup ∧
    (∀ x, x ∈ listChildren st.vfs_content (normalize_path st.current_path t) ↔
      ∃ q, q ∈ st.vfs_content ∧
        childKeep (lsPre (normalize_path st.current_path t)) q.1 = true ∧
        x = childName (lsPre (normalize_path st.current_path t)) q.1) := by
  refine ⟨?_, ?_, listChildren_sorted _ _, listChildren_nodup _ _, mem_listChildren _ _⟩
  · intro c hc
    have hnr : normalize_path st.current_path t ≠ "/" := by
      intro he
      rw [he] at hc
      unfold rootNotFile at hroot
      rw [hc] at hroot
      simp at hroot
    have hA : ¬(List.lookup (normalize_path st.current_path t) st.vfs_content = none ∧
        normalize_path st.current_path t ≠ "/") := by
      intro hcon
      rw [hc] at hcon
      exact Option.noConfusion hcon.1
    have hB : entryTypeIsDir (List.lookup (normalize_path st.current_path t)
        st.vfs_content) = false := by
      rw [hc]
      rfl
    unfold ls
    rw [if_neg hA, if_pos ⟨hnr, hB⟩]
  · intro h
    rcases h with h | h
    · unfold ls
      rw [if_neg (fun hcon => hcon.2 h), if_neg (fun hcon => hcon.1 h)]
    · have hA : ¬(List.lookup (normalize_path st.current_path t) st.vfs_content = none ∧
          normalize_path st.current_path t ≠ "/") := by
        intro hcon
        rw [h] at hcon
        exact Option.noConfusion hcon.1
      have hB : ¬(normalize_path st.current_path t ≠ "/" ∧
          entryTypeIsDir (List.lookup (normalize_path st.current_path t)
            st.vfs_content) = false) := by
        intro hcon
        have hc2 := hcon.2
        rw [h] at hc2
        simp [entryTypeIsDir] at hc2
      unfold ls
      rw [if_neg hA, if_neg hB]

theorem C5_witness :
    rootNotFile sampleState.vfs_content = true ∧
    ls sampleState "/" = (Outcome.ok (some (joinSpace
      (listChildren sampleState.vfs_content
        (normalize_path sampleState.current_path "/")))), sampleState) ∧
    ls sampleState "f" = (Outcome.ok (some (lastSegment
      (normalize_path sampleState.current_path "f"))), sampleState) ∧
    joinSpace (listChildren sampleState.vfs_content "/") = "a f" :=
  ⟨by decide,
    (C5_ls_spec sampleState "/" (by decide)).2.1 (Or.inl (by decide)),
    (C5_ls_spec sampleState "f" (by decide)).1 "x" (by decide),
    by decide⟩

/-! ## Claims about loading and root handling -/

/-- C2 counterexample: an invalid binary-to-text encoding and an
archive with zero entries are surfaced with the *same* exception kind
(`RuntimeError`, from the generic `except Exception` wrapper), even
though they are different failure modes — the kinds are conflated,
distinguishable only by message text. -/
theorem C2_counterexample :
    loadErrKind (load_from_base64 (ZipOutcome.decodeFail "Invalid base64-encoded string")) =
      loadErrKind (load_from_base64 (ZipOutcome.archive [])) ∧
    load_from_base64 (ZipOutcome.decodeFail "Invalid base64-encoded string") ≠
      load_from_base64 (ZipOutcome.archive []) ∧
    loadErrKind (load_from_base64 (ZipOutcome.decodeFail "Invalid base64-encoded string")) ≠
      loadErrKind (load_from_base64 ZipOutcome.badZip) := by
  decide

/-- C2 (amended): all three load failure modes are fatal — each yields
an error and no engine is constructed — and none is silently
swallowed; a malformed archive is surfaced distinctly as a
`ValueError`, but an invalid binary-to-text encoding and an empty
archive are both surfaced as `RuntimeError` (the generic wrapper),
distinguished only by their message text. -/
theorem C2_load_failures (msg : String) (ms : List RawMember) (hms : ms ≠ []) :
    load_from_base64 (ZipOutcome.decodeFail msg) =
      Except.error (LoadError.runtimeError
        ("VFS load error: Failed to process VFS data (" ++ msg ++ ")")) ∧
    load_from_base64 ZipOutcome.badZip =
      Except.error (LoadError.valueError
        "VFS load error: Invalid or corrupted ZIP file format.") ∧
    load_from_base64 (ZipOutcome.archive []) =
      Except.error (LoadError.runtimeError
        "VFS load error: Failed to process VFS data (ZIP archive is empty.)") ∧
    loadErrKind (load_from_base64 (ZipOutcome.decodeFail msg)) =
      loadErrKind (load_from_base64 (ZipOutcome.archive [])) ∧
    loadErrKind (load_from_base64 ZipOutcome.badZip) ≠
      loadErrKind (load_from_base64 (ZipOutcome.decodeFail msg)) ∧
    init (ZipOutcome.archive ms) = Except.ok ⟨"/", buildStore ms⟩ ∧
    (∀ e, init (ZipOutcome.decodeFail msg) ≠ Except.ok e) ∧
    (∀ e, init ZipOutcome.badZip ≠ Except.ok e) ∧
    (∀ e, init (ZipOutcome.archive []) ≠ Except.ok e) := by
  refine ⟨rfl, rfl, rfl, rfl, by simp [load_from_base64, loadErrKind], ?_, ?_, ?_, ?_⟩
  · simp only [init, load_from_base64]
    rw [if_neg hms]
  · intro e
    simp [init, load_from_base64]
  · intro e
    simp [init, load_from_base64]
  · intro e
    simp [init, load_from_base64]

theorem C2_witness :
    ([(⟨"a", false, "hi"⟩ : RawMember)] ≠ []) ∧
    init (ZipOutcome.archive [⟨"a", false, "hi"⟩]) =
      Except.ok ⟨"/", buildStore [⟨"a", false, "hi"⟩]⟩ ∧
    (∀ e, init (ZipOutcome.decodeFail "x") ≠ Except.ok e) :=
  ⟨by decide,
    (C2_load_failures "x" [⟨"a", false, "hi"⟩] (by decide)).2.2.2.2.2.1,
    (C2_load_failures "x" [⟨"a", false, "hi"⟩] (by decide)).2.2.2.2.2.2.1⟩

/-- C6 counterexample: on a store loaded from an archive with no
explicit root member, `cat("/")` fails with the *not-found* error, not
the is-a-directory error the claim requires. -/
theorem C6_counterexample :
    init rootlessZip = Except.ok rootlessState ∧
    List.lookup "/" rootlessState.vfs_content = none ∧
    cat rootlessState "/" =
      (Outcome.error "cat: /: No such file or directory", rootlessState) ∧
    cat rootlessState "/" ≠
      (Outcome.error "cat: /: Is a directory", rootlessState) := by
  decide

/-- C6 (amended): `cd("/")` and `ls("/")` special-case root and
succeed on every store (root behaves as an ever-present directory for
them), but `cat` has no such special case: when the store holds no
explicit root entry, `cat("/")` fails with the not-found error rather
than the is-a-directory error. -/
theorem C6_root_handling (st : VfsState)
    (h : List.lookup "/" st.vfs_content = none) :
    cd st "/" = (Outcome.ok none, ⟨"/", st.vfs_content⟩) ∧
    ls st "/" = (Outcome.ok (some (joinSpace (listChildren st.vfs_content "/"))), st) ∧
    cat st "/" = (Outcome.error ("cat: " ++ "/" ++ ": No such file or directory"), st) := by
  have hnorm : normalize_path st.current_path "/" = "/" := normalize_path_root _
  have hres : cdResolve st "/" = "/" := by
    unfold cdResolve
    rw [hnorm]
    rfl
  refine ⟨?_, ?_, ?_⟩
  · unfold cd
    rw [hres, if_neg (fun hcon => hcon.2 rfl), if_neg (fun hcon => hcon.1 rfl)]
  · unfold ls
    rw [hnorm, if_neg (fun hcon => hcon.2 rfl), if_neg (fun hcon => hcon.1 rfl)]
  · unfold cat
    rw [hnorm, h]

theorem C6_witness :
    List.lookup "/" rootlessState.vfs_content = none ∧
    cd rootlessState "/" = (Outcome.ok none, ⟨"/", rootlessState.vfs_content⟩) ∧
    cat rootlessState "/" =
      (Outcome.error ("cat: " ++ "/" ++ ": No such file or directory"), rootlessState) :=
  ⟨by decide,
    (C6_root_handling rootlessState (by decide)).1,
    (C6_root_handling rootlessState (by decide)).2.2⟩

end VirtualFileSystem
